import Mathlib

/-!
Verification of the ShaderToyRecorder capture-and-encode pipeline.

The development shallowly embeds the two content-script variants of the
repository:

* `src/src/content.ts` — the TypeScript variant (`startRecording`,
  `stopRecording`, and the `MediaRecorder` event handlers
  `ondataavailable`, `onstop`, `onerror`);
* `src/shadertoy-recorder/content.js` — the legacy JavaScript variant,
  modelled where its behaviour differs (MIME fallback, fixed `.mp4`
  download extension).

Browser-API effects (track stops, chunk pushes, downloads, user-visible
notices) are recorded in an explicit action log, and the asynchronous
event handlers are driven by an explicit event trace: a list of
`dataavailable` payloads followed by exactly one terminal event
(stop-completion or encoder error), matching the single-threaded
event-ordering guarantee of the platform (no chunk callback after the
terminal callback, at most one terminal callback per session).
-/

namespace ShaderToyRecorder

/-- One `MediaStreamTrack`: an identity plus its kind
(audio sample track or video frame track). -/
structure Track where
  id : Nat
  isAudio : Bool
deriving DecidableEq, Repr

/-- The browser environment a single `startRecording` call observes:
whether the `demogl` canvas exists, whether the `getUserMedia` audio
request succeeds, the tracks of the captured/granted streams, the
runtime's `MediaRecorder.isTypeSupported` predicate, whether the
`MediaRecorder` constructor succeeds, and whether artifact
assembly/download inside `onstop` throws. -/
structure Env where
  canvasExists : Bool
  audioGranted : Bool
  videoTracks : List Track
  audioTracks : List Track
  supported : String → Bool
  recorderCtorOk : Bool
  saveThrows : Bool

/-- The fixed, priority-ordered MIME candidate list of
`src/src/content.ts` lines 61–68. -/
def mimeTypes : List String :=
  ["video/mp4; codecs=\"avc1.42E01E, mp4a.40.2\"",
   "video/webm; codecs=\"vp9, opus\"",
   "video/webm; codecs=\"vp8, opus\"",
   "video/webm; codecs=\"h264, opus\"",
   "video/mp4",
   "video/webm"]

/-- `const selectedMimeType = mimeTypes.find(type => MediaRecorder.isTypeSupported(type))`
(content.ts line 70). -/
def selectedMimeType (env : Env) : Option String :=
  mimeTypes.find? env.supported

/-- The `MediaRecorder` configuration built at content.ts lines 81–85
plus the timeslice passed to `mediaRecorder.start` at line 157,
together with the combined stream's tracks the handlers close over. -/
structure Session where
  tracks : List Track
  mimeType : String
  videoBitsPerSecond : Nat
  audioBitsPerSecond : Option Nat
  timeslice : Nat
deriving Repr

/-- Outcome of one `startRecording` call. -/
inductive StartResult where
  | canvasNotFound
  | noTracks
  | noSupportedFormat
  | recorderCtorFailed
  | started (s : Session)
deriving Repr

/-- An observable effect of the pipeline on the browser: a chunk pushed
onto `recordedBlobs`, a `track.stop()` call, a triggered download of an
assembled artifact under a filename, or a user-visible/console notice. -/
inductive Action where
  | pushChunk (data : List Nat)
  | stopTrack (t : Track)
  | download (filename : String) (artifact : List Nat)
  | reportCanvasNotFound
  | reportAudioDenied
  | reportNoTracks
  | reportNoSupportedFormat
  | reportRecorderCtorFailed
  | reportEmptyRecording
  | reportSaveError
  | reportEncoderError
  | reportStopInactive
deriving DecidableEq, Repr

/-- The tracks acquired by a `startRecording` call once past the canvas
check: the canvas capture stream's tracks plus, when the audio
permission was granted, the microphone stream's tracks. -/
def acquiredTracks (env : Env) : List Track :=
  env.videoTracks ++ (if env.audioGranted then env.audioTracks else [])

/-- Embedding of `startRecording` (content.ts lines 15–159) up to the
installation of the event handlers.  The module-global `recordedBlobs`
is threaded explicitly: `g` is its value before the call and the third
component its value after (line 38 resets it once past the canvas
check).  Returns the emitted action log and the start outcome. -/
def startRecording (env : Env) (g : List (List Nat)) :
    List Action × StartResult × List (List Nat) :=
  if ¬ env.canvasExists then
    ([.reportCanvasNotFound], .canvasNotFound, g)
  else
    let audioLog : List Action :=
      if env.audioGranted then [] else [.reportAudioDenied]
    let tracksToCombine := acquiredTracks env
    if tracksToCombine.isEmpty then
      (audioLog ++ [.reportNoTracks]
        ++ env.videoTracks.map .stopTrack
        ++ (if env.audioGranted then env.audioTracks.map .stopTrack else []),
       .noTracks, [])
    else
      match selectedMimeType env with
      | none =>
        (audioLog ++ [.reportNoSupportedFormat]
          ++ tracksToCombine.map .stopTrack,
         .noSupportedFormat, [])
      | some m =>
        if ¬ env.recorderCtorOk then
          (audioLog ++ [.reportRecorderCtorFailed]
            ++ tracksToCombine.map .stopTrack,
           .recorderCtorFailed, [])
        else
          (audioLog,
           .started
             { tracks := tracksToCombine
               mimeType := m
               videoBitsPerSecond := 5000000
               audioBitsPerSecond :=
                 if env.audioGranted then some 128000 else none
               timeslice := 100 },
           [])

/-- UTC components of the `Date` captured inside the stop handler
(`const now = new Date()`). -/
structure DateTime where
  year : Nat
  month : Nat
  day : Nat
  hour : Nat
  minute : Nat
  second : Nat
  ms : Nat
deriving Repr

/-- A calendar-valid instant, the domain `Date.prototype.toISOString`
operates on. -/
def DateTime.Valid (d : DateTime) : Prop :=
  d.year < 10000 ∧ 1 ≤ d.month ∧ d.month ≤ 12 ∧ 1 ≤ d.day ∧ d.day ≤ 31 ∧
    d.hour < 24 ∧ d.minute < 60 ∧ d.second < 60 ∧ d.ms < 1000

/-- Decimal digit character of `n % 10`. -/
def digitChar (n : Nat) : Char :=
  match n % 10 with
  | 0 => '0' | 1 => '1' | 2 => '2' | 3 => '3' | 4 => '4'
  | 5 => '5' | 6 => '6' | 7 => '7' | 8 => '8' | _ => '9'

/-- Two-digit zero-padded decimal field. -/
def pad2 (n : Nat) : List Char := [digitChar (n / 10), digitChar n]

/-- Three-digit zero-padded decimal field. -/
def pad3 (n : Nat) : List Char :=
  [digitChar (n / 100), digitChar (n / 10), digitChar n]

/-- Four-digit zero-padded decimal field. -/
def pad4 (n : Nat) : List Char :=
  [digitChar (n / 1000), digitChar (n / 100), digitChar (n / 10), digitChar n]

/-- `Date.prototype.toISOString`: the 24-character
`YYYY-MM-DDTHH:MM:SS.mmmZ` rendering of the instant, as a character
list. -/
def toISOString (d : DateTime) : List Char :=
  pad4 d.year ++ '-' :: pad2 d.month ++ '-' :: pad2 d.day
    ++ 'T' :: pad2 d.hour ++ ':' :: pad2 d.minute ++ ':' :: pad2 d.second
    ++ '.' :: pad3 d.ms ++ ['Z']

/-- One step of `.replace(/[:.]/g, '-')`: colons and periods become
dashes (content.ts line 115). -/
def dashChar (c : Char) : Char :=
  if c = ':' ∨ c = '.' then '-' else c

/-- JavaScript `String.prototype.replace` with a plain (non-global)
string pattern: only the first occurrence is replaced
(content.ts line 116, `.replace('T', '_')`). -/
def replaceFirst (a b : Char) : List Char → List Char
  | [] => []
  | c :: cs => if c = a then b :: cs else c :: replaceFirst a b cs

/-- The timestamp computed at content.ts lines 113–117:
`now.toISOString().replace(/[:.]/g, '-').replace('T', '_').slice(0, 19)`. -/
def jsTimestamp (d : DateTime) : List Char :=
  (replaceFirst 'T' '_' ((toISOString d).map dashChar)).take 19

/-- The `YYYY-MM-DD_HH-MM-SS` format named by the specification's
artifact-naming contract. -/
def specTimestamp (d : DateTime) : List Char :=
  pad4 d.year ++ '-' :: pad2 d.month ++ '-' :: pad2 d.day
    ++ '_' :: pad2 d.hour ++ '-' :: pad2 d.minute ++ '-' :: pad2 d.second

/-- Character-list model of `String.prototype.startsWith`. -/
def listStartsWith : List Char → List Char → Bool
  | _, [] => true
  | [], _ :: _ => false
  | c :: cs, p :: ps => c == p && listStartsWith cs ps

/-- `String.prototype.startsWith` on our string model. -/
def strStartsWith (s p : String) : Bool :=
  listStartsWith s.data p.data

/-- The extension chosen at content.ts lines 122–125: `.mp4` by
default, `.webm` when the selected MIME type starts with
`video/webm`. -/
def fileExtension (mime : String) : String :=
  if strStartsWith mime "video/webm" then ".webm" else ".mp4"

/-- Spec-side extension rule (§4.2): `.mp4` iff the container is
MP4-family, else `.webm`.  Kept separate from `fileExtension` so the
two can be compared on the candidate list. -/
def specExtension (mime : String) : String :=
  if strStartsWith mime "video/mp4" then ".mp4" else ".webm"

/-- The download filename assembled at content.ts line 126. -/
def downloadFilename (mime : String) (d : DateTime) : String :=
  "shadertoy-recording_" ++ String.mk (jsTimestamp d) ++ fileExtension mime

/-- One `ondataavailable` firing (content.ts lines 94–98): a possibly
absent blob payload; non-empty payloads are appended to
`recordedBlobs`. -/
def dataStep (g : List (List Nat)) (data : Option (List Nat)) :
    List (List Nat) × List Action :=
  match data with
  | some d => if 0 < d.length then (g ++ [d], [.pushChunk d]) else (g, [])
  | none => (g, [])

/-- Processing of a whole sequence of `ondataavailable` events against
the accumulated `recordedBlobs`. -/
def processData (g : List (List Nat)) :
    List (Option (List Nat)) → List (List Nat) × List Action
  | [] => (g, [])
  | d :: ds =>
    let p := dataStep g d
    let q := processData p.1 ds
    (q.1, p.2 ++ q.2)

/-- The chunks a sequence of `ondataavailable` events appends: the
non-empty payloads, in emission order. -/
def emittedChunks (ds : List (Option (List Nat))) : List (List Nat) :=
  ds.filterMap fun d =>
    match d with
    | some x => if 0 < x.length then some x else none
    | none => none

/-- The `onstop` handler (content.ts lines 100–146): with no recorded
blobs, report the empty recording; otherwise assemble the artifact and
trigger the download unless assembly throws; in every case stop all
combined-stream tracks afterwards. -/
def onstopLog (env : Env) (s : Session) (d : DateTime)
    (g : List (List Nat)) : List Action :=
  (if g.isEmpty then
    [.reportEmptyRecording]
  else if env.saveThrows then
    [.reportSaveError]
  else
    [.download (downloadFilename s.mimeType d) g.flatten])
  ++ s.tracks.map .stopTrack

/-- The `onerror` handler (content.ts lines 148–155): report, stop all
combined-stream tracks. -/
def onerrorLog (s : Session) : List Action :=
  .reportEncoderError :: s.tracks.map .stopTrack

/-- The single terminal event of a session: the asynchronous
stop-completion callback (carrying the wall-clock instant the handler
observes) or an encoder fault. -/
inductive TerminalEvent where
  | stopComplete (d : DateTime)
  | encoderError
deriving Repr

/-- A complete run of a started session: the data events in emission
order followed by exactly one terminal event, per the platform's
event-ordering guarantee.  Returns the action log of the handlers and
the final `recordedBlobs`. -/
def runSession (env : Env) (s : Session) (g : List (List Nat))
    (ds : List (Option (List Nat))) (term : TerminalEvent) :
    List Action × List (List Nat) :=
  let p := processData g ds
  match term with
  | .stopComplete d => (p.2 ++ onstopLog env s d p.1, p.1)
  | .encoderError => (p.2 ++ onerrorLog s, p.1)

/-- The full action log of one `startRecording` call followed (when the
session started) by a complete session run. -/
def fullLog (env : Env) (g : List (List Nat))
    (ds : List (Option (List Nat))) (term : TerminalEvent) : List Action :=
  let r := startRecording env g
  match r.2.1 with
  | .started s => r.1 ++ (runSession env s r.2.2 ds term).1
  | _ => r.1

/-- The recorder state as read by `stopRecording`
(content.ts line 162). -/
inductive RecorderState where
  | recording
  | paused
  | inactive
deriving DecidableEq, Repr

/-- `stopRecording` (content.ts lines 161–169): send the stop signal
only when a recorder exists and is recording or paused; otherwise warn.
Returns the action log and whether the stop signal was sent. -/
def stopRecording (mr : Option RecorderState) : List Action × Bool :=
  match mr with
  | some .recording => ([], true)
  | some .paused => ([], true)
  | _ => ([.reportStopInactive], false)

/-- Predicate picking out download actions. -/
def isDownload : Action → Bool
  | .download _ _ => true
  | _ => false

/-- Predicate picking out the actions that reference a given track.
The only handler actions that touch a track are `stop()` calls. -/
def usesTrack (t : Track) : Action → Bool
  | .stopTrack u => u = t
  | _ => false

/-! ### The legacy variant (`src/shadertoy-recorder/content.js`) -/

/-- The legacy candidate list (content.js lines 15–20). -/
def legacyMimeTypes : List String :=
  ["video/mp4",
   "video/webm;codecs=h264",
   "video/webm;codecs=vp9",
   "video/webm"]

/-- `mimeTypes.find(...) || 'video/webm'` (content.js line 22). -/
def legacySelectedMimeType (supported : String → Bool) : String :=
  (legacyMimeTypes.find? supported).getD "video/webm"

/-- The legacy download filename (content.js lines 50–57): the same
timestamp pipeline, but the extension is hard-coded to `.mp4`. -/
def legacyDownloadFilename (d : DateTime) : String :=
  "shadertoy-recording_" ++ String.mk (jsTimestamp d) ++ ".mp4"

/-- The legacy `onstop` handler (content.js lines 36–71).  Note that
the legacy variant stops the stream tracks only in the deferred cleanup
of the successful download path. -/
def legacyOnstopLog (saveThrows : Bool) (tracks : List Track)
    (_mime : String) (d : DateTime) (g : List (List Nat)) : List Action :=
  if g.isEmpty then
    [.reportEmptyRecording]
  else if saveThrows then
    [.reportSaveError]
  else
    .download (legacyDownloadFilename d) g.flatten :: tracks.map .stopTrack

/-! ### Timestamp pipeline -/

theorem dashChar_digit (n : Nat) : dashChar (digitChar n) = digitChar n := by
  unfold digitChar
  split <;> decide

theorem dashChar_dash : dashChar '-' = '-' := by decide

theorem dashChar_T : dashChar 'T' = 'T' := by decide

theorem dashChar_colon : dashChar ':' = '-' := by decide

theorem dashChar_period : dashChar '.' = '-' := by decide

theorem dashChar_Z : dashChar 'Z' = 'Z' := by decide

theorem replaceFirst_digit (n : Nat) (cs : List Char) :
    replaceFirst 'T' '_' (digitChar n :: cs)
      = digitChar n :: replaceFirst 'T' '_' cs := by
  unfold digitChar
  split <;> simp [replaceFirst]

theorem replaceFirst_dash (cs : List Char) :
    replaceFirst 'T' '_' ('-' :: cs) = '-' :: replaceFirst 'T' '_' cs := by
  simp [replaceFirst]

theorem replaceFirst_T (cs : List Char) :
    replaceFirst 'T' '_' ('T' :: cs) = '_' :: cs := by
  simp [replaceFirst]

/-- The JavaScript timestamp pipeline
(`toISOString → replace [:.]→- → replace first T→_ → slice 19`)
produces exactly the `YYYY-MM-DD_HH-MM-SS` rendering of the instant. -/
theorem jsTimestamp_eq_specTimestamp (d : DateTime) :
    jsTimestamp d = specTimestamp d := by
  have hrepl : replaceFirst 'T' '_' ((toISOString d).map dashChar)
      = specTimestamp d ++ '-' :: (pad3 d.ms ++ ['Z']) := by
    simp only [toISOString, specTimestamp, pad4, pad2, pad3,
      List.cons_append, List.nil_append, List.map_cons, List.map_nil,
      dashChar_digit, dashChar_dash, dashChar_T, dashChar_colon,
      dashChar_period, dashChar_Z, replaceFirst_digit, replaceFirst_dash,
      replaceFirst_T]
  have hlen : (specTimestamp d).length = 19 := by
    simp [specTimestamp, pad4, pad2]
  rw [jsTimestamp, hrepl, ← hlen, List.take_left]

/-! ### Extension rule on the candidate list -/

/-- On every candidate of the fixed list, the extension the code picks
coincides with the spec rule: `.mp4` exactly on the MP4-family
candidates. -/
theorem fileExtension_eq_specExtension {m : String} (hm : m ∈ mimeTypes) :
    fileExtension m = specExtension m := by
  fin_cases hm <;> decide

/-! ### Data accumulation -/

/-- Processing a sequence of `ondataavailable` events appends exactly
the non-empty payloads, in emission order, and logs exactly those
pushes. -/
theorem processData_eq (ds : List (Option (List Nat))) (g : List (List Nat)) :
    processData g ds
      = (g ++ emittedChunks ds, (emittedChunks ds).map Action.pushChunk) := by
  induction ds generalizing g with
  | nil => simp [processData, emittedChunks]
  | cons d ds ih =>
    cases d with
    | none => simp [processData, dataStep, emittedChunks, List.filterMap_cons, ih]
    | some x =>
      by_cases hx : 0 < x.length
      · simp [processData, dataStep, hx, emittedChunks, List.filterMap_cons, ih]
      · simp [processData, dataStep, hx, emittedChunks, List.filterMap_cons, ih]

/-! ### Inversion of `startRecording` -/

/-- Fully computed form of a successful `startRecording` call. -/
theorem startRecording_eq_of (env : Env) (g : List (List Nat))
    (hc : env.canvasExists = true)
    (hne : (acquiredTracks env).isEmpty = false)
    {m : String} (hm : selectedMimeType env = some m)
    (hctor : env.recorderCtorOk = true) :
    startRecording env g
      = ((if env.audioGranted then [] else [Action.reportAudioDenied]),
         StartResult.started
           { tracks := acquiredTracks env
             mimeType := m
             videoBitsPerSecond := 5000000
             audioBitsPerSecond :=
               if env.audioGranted then some 128000 else none
             timeslice := 100 },
         []) := by
  simp [startRecording, hc, hne, hm, hctor]

/-- Inversion: a call that returns `started s` passed the canvas check,
combined a non-empty track list, selected `s.mimeType` from the
candidate list, and built `s` from the fixed configuration with the
global blob list reset to `[]`. -/
theorem startRecording_started {env : Env} {g : List (List Nat)} {s : Session}
    (h : (startRecording env g).2.1 = StartResult.started s) :
    env.canvasExists = true ∧
      (acquiredTracks env).isEmpty = false ∧
      selectedMimeType env = some s.mimeType ∧
      env.recorderCtorOk = true ∧
      s = { tracks := acquiredTracks env
            mimeType := s.mimeType
            videoBitsPerSecond := 5000000
            audioBitsPerSecond :=
              if env.audioGranted then some 128000 else none
            timeslice := 100 } := by
  simp only [startRecording] at h
  split at h
  · simp at h
  · next hc =>
    rw [not_not] at hc
    split at h
    · simp at h
    · next hne =>
      split at h
      · simp at h
      · next m hm =>
        split at h
        · simp at h
        · next hctor =>
          rw [not_not] at hctor
          simp only [StartResult.started.injEq] at h
          refine ⟨hc, by simpa using hne, ?_, hctor, ?_⟩
          · rw [hm, ← h]
          · rw [← h]

/-! ### Track-release bookkeeping -/

theorem filter_usesTrack_map_stop_of_not_mem (t : Track) (l : List Track)
    (h : t ∉ l) :
    (l.map Action.stopTrack).filter (usesTrack t) = [] := by
  induction l with
  | nil => rfl
  | cons a l ih =>
    have ha : a ≠ t := fun e => h (e ▸ List.mem_cons_self a l)
    simp only [List.map_cons, List.filter_cons]
    rw [if_neg (by simp [usesTrack, ha])]
    exact ih fun hl => h (List.mem_cons_of_mem a hl)

/-- Stopping a duplicate-free track list releases a member track
exactly once: the track-referencing actions are exactly one stop. -/
theorem filter_usesTrack_map_stop (t : Track) (l : List Track)
    (hnd : l.Nodup) (hm : t ∈ l) :
    (l.map Action.stopTrack).filter (usesTrack t) = [Action.stopTrack t] := by
  induction l with
  | nil => cases hm
  | cons a l ih =>
    rcases List.mem_cons.mp hm with rfl | hm'
    · have ht : t ∉ l := (List.nodup_cons.mp hnd).1
      simp only [List.map_cons, List.filter_cons]
      rw [if_pos (by simp [usesTrack])]
      rw [filter_usesTrack_map_stop_of_not_mem t l ht]
    · have ha : a ≠ t := fun e => (List.nodup_cons.mp hnd).1 (e ▸ hm')
      simp only [List.map_cons, List.filter_cons]
      rw [if_neg (by simp [usesTrack, ha])]
      exact ih (List.nodup_cons.mp hnd).2 hm'

theorem filter_usesTrack_map_push (t : Track) (l : List (List Nat)) :
    (l.map Action.pushChunk).filter (usesTrack t) = [] := by
  induction l with
  | nil => rfl
  | cons a l ih => simp [usesTrack, ih]

/-! ### First-supported selection -/

/-- `List.find?` returns the element at the first index satisfying the
predicate. -/
theorem find?_first {α : Type} (p : α → Bool) (l : List α) (i : Nat)
    (h : i < l.length)
    (hb : ∀ j (hj : j < i), p (l.get ⟨j, Nat.lt_trans hj h⟩) = false)
    (hp : p (l.get ⟨i, h⟩) = true) :
    l.find? p = some (l.get ⟨i, h⟩) := by
  induction l generalizing i with
  | nil => exact absurd h (Nat.not_lt_zero i)
  | cons a l ih =>
    cases i with
    | zero =>
      simp only [List.get] at hp
      rw [List.find?_cons_of_pos _ hp]
      rfl
    | succ i =>
      have ha : p a = false := hb 0 (Nat.succ_pos i)
      have h' : i < l.length := Nat.lt_of_succ_lt_succ h
      simp only [List.get]
      rw [List.find?_cons_of_neg _ (by simp [ha])]
      exact ih i h'
        (fun j hj => by
          have := hb (j + 1) (Nat.succ_lt_succ hj)
          simpa using this)
        (by simpa using hp)

/-! ### Download bookkeeping -/

theorem filter_isDownload_push (l : List (List Nat)) :
    (l.map Action.pushChunk).filter isDownload = [] := by
  induction l with
  | nil => rfl
  | cons a l ih => simp [isDownload, ih]

theorem filter_isDownload_stop (l : List Track) :
    (l.map Action.stopTrack).filter isDownload = [] := by
  induction l with
  | nil => rfl
  | cons a l ih => simp [isDownload, ih]

theorem filter_isDownload_audioLog (b : Bool) :
    (if b then ([] : List Action)
     else [Action.reportAudioDenied]).filter isDownload = [] := by
  cases b <;> rfl

theorem filter_usesTrack_audioLog (t : Track) (b : Bool) :
    (if b then ([] : List Action)
     else [Action.reportAudioDenied]).filter (usesTrack t) = [] := by
  cases b <;> rfl

/-- Fully computed form of a `startRecording` call that fails profile
selection. -/
theorem startRecording_eq_noFormat (env : Env) (g : List (List Nat))
    (hc : env.canvasExists = true)
    (hne : (acquiredTracks env).isEmpty = false)
    (hsel : selectedMimeType env = none) :
    startRecording env g
      = ((if env.audioGranted then [] else [Action.reportAudioDenied])
          ++ [Action.reportNoSupportedFormat]
          ++ (acquiredTracks env).map .stopTrack,
         StartResult.noSupportedFormat, []) := by
  simp [startRecording, hc, hne, hsel]

/-- Fully computed form of a `startRecording` call whose recorder
construction throws. -/
theorem startRecording_eq_ctorFail (env : Env) (g : List (List Nat))
    (hc : env.canvasExists = true)
    (hne : (acquiredTracks env).isEmpty = false)
    {m : String} (hsel : selectedMimeType env = some m)
    (hctor : env.recorderCtorOk = false) :
    startRecording env g
      = ((if env.audioGranted then [] else [Action.reportAudioDenied])
          ++ [Action.reportRecorderCtorFailed]
          ++ (acquiredTracks env).map .stopTrack,
         StartResult.recorderCtorFailed, []) := by
  simp [startRecording, hc, hne, hsel, hctor]

/-- The `onstop` handler touches tracks only through its final
stop-all pass. -/
theorem filter_usesTrack_onstop (env : Env) (s : Session) (d : DateTime)
    (g : List (List Nat)) (t : Track) :
    (onstopLog env s d g).filter (usesTrack t)
      = (s.tracks.map Action.stopTrack).filter (usesTrack t) := by
  rw [onstopLog, List.filter_append]
  have h1 : (if g.isEmpty then [Action.reportEmptyRecording]
      else if env.saveThrows then [Action.reportSaveError]
      else [Action.download (downloadFilename s.mimeType d) g.flatten]).filter
        (usesTrack t) = [] := by
    split_ifs <;> rfl
  rw [h1, List.nil_append]

/-! ### The claims -/

/-- Claim C1: for every session that finalizes with a non-empty chunk
sequence (and whose artifact assembly does not throw), the full action
log contains exactly one download, and its filename is exactly
`shadertoy-recording_<YYYY-MM-DD_HH-MM-SS><ext>` — the timestamp is the
stop-completion instant in `YYYY-MM-DD_HH-MM-SS` form, and `<ext>` is
`.mp4` iff the selected profile is MP4-family and `.webm` otherwise
(`specExtension`). -/
theorem C1_artifact_name (env : Env) (g : List (List Nat))
    (ds : List (Option (List Nat))) (d : DateTime) (s : Session)
    (hs : (startRecording env g).2.1 = StartResult.started s)
    (hsave : env.saveThrows = false)
    (hne : emittedChunks ds ≠ [])
    (_hv : d.Valid) :
    (fullLog env g ds (.stopComplete d)).filter isDownload
      = [Action.download
           ("shadertoy-recording_" ++ String.mk (specTimestamp d)
             ++ specExtension s.mimeType)
           (emittedChunks ds).flatten] := by
  obtain ⟨hc, hne', hm, hctor, hsEq⟩ := startRecording_started hs
  have hmem : s.mimeType ∈ mimeTypes := List.mem_of_find?_eq_some hm
  have hfname : downloadFilename s.mimeType d
      = "shadertoy-recording_" ++ String.mk (specTimestamp d)
          ++ specExtension s.mimeType := by
    rw [downloadFilename, jsTimestamp_eq_specTimestamp,
      fileExtension_eq_specExtension hmem]
  have hstart := startRecording_eq_of env g hc hne' hm hctor
  rw [← hsEq] at hstart
  rcases hds : emittedChunks ds with _ | ⟨c, cs⟩
  · exact absurd hds hne
  · simp only [fullLog, hstart, runSession, processData_eq, hds,
      List.nil_append, onstopLog, List.isEmpty_cons, hsave,
      Bool.false_eq_true, if_false, List.filter_append,
      filter_isDownload_audioLog, filter_isDownload_push, List.filter_cons,
      filter_isDownload_stop, isDownload, hfname]
    simp [← hds]

/-- Claim C2: on every termination branch — successful finalization,
empty recording, artifact-assembly exception, encoder fault, and every
start-time failure after track acquisition — each acquired track is
stopped exactly once and never used after being stopped: the
track-referencing actions of the full session log are exactly the one
stop of that track.  (Stops are the only actions of the pipeline that
reference a track.) -/
theorem C2_track_release (env : Env) (g : List (List Nat))
    (ds : List (Option (List Nat))) (term : TerminalEvent) (t : Track)
    (hc : env.canvasExists = true)
    (hnd : (acquiredTracks env).Nodup)
    (ht : t ∈ acquiredTracks env) :
    (fullLog env g ds term).filter (usesTrack t) = [Action.stopTrack t] := by
  have hne : (acquiredTracks env).isEmpty = false := by
    rcases h : acquiredTracks env with _ | ⟨a, l⟩
    · rw [h] at ht; cases ht
    · rfl
  have hstops := filter_usesTrack_map_stop t (acquiredTracks env) hnd ht
  cases hsel : selectedMimeType env with
  | none =>
    rw [fullLog, startRecording_eq_noFormat env g hc hne hsel]
    simp only [List.filter_append, filter_usesTrack_audioLog,
      List.nil_append, hstops, List.filter_cons]
    rfl
  | some m =>
    cases hctor : env.recorderCtorOk with
    | false =>
      rw [fullLog, startRecording_eq_ctorFail env g hc hne hsel hctor]
      simp only [List.filter_append, filter_usesTrack_audioLog,
        List.nil_append, hstops, List.filter_cons]
      rfl
    | true =>
      have hstart := startRecording_eq_of env g hc hne hsel hctor
      cases term with
      | stopComplete d =>
        rw [fullLog, hstart]
        simp only [runSession, processData_eq, List.nil_append,
          List.filter_append, filter_usesTrack_audioLog,
          filter_usesTrack_map_push, filter_usesTrack_onstop, hstops]
      | encoderError =>
        rw [fullLog, hstart]
        simp only [runSession, processData_eq, List.nil_append, onerrorLog,
          List.filter_append, filter_usesTrack_audioLog,
          filter_usesTrack_map_push, List.filter_cons]
        simp only [hstops]
        rfl

/-- Claim C3: profile selection returns the first candidate of the
fixed priority-ordered list that the runtime reports as supported; and
when no candidate is supported, the call fails with
`noSupportedFormat`, its log is exactly the notices plus one stop per
acquired track (so no artifact), releasing them all. -/
theorem C3_profile_selection (env : Env) (g : List (List Nat)) :
    (∀ i (h : i < mimeTypes.length),
        (∀ j (hj : j < i),
          env.supported (mimeTypes.get ⟨j, Nat.lt_trans hj h⟩) = false) →
        env.supported (mimeTypes.get ⟨i, h⟩) = true →
        selectedMimeType env = some (mimeTypes.get ⟨i, h⟩))
    ∧ ((∀ m ∈ mimeTypes, env.supported m = false) →
        env.canvasExists = true →
        (acquiredTracks env).isEmpty = false →
        (startRecording env g).2.1 = StartResult.noSupportedFormat
          ∧ (startRecording env g).1
              = (if env.audioGranted then [] else [Action.reportAudioDenied])
                ++ [Action.reportNoSupportedFormat]
                ++ (acquiredTracks env).map .stopTrack
          ∧ (startRecording env g).1.filter isDownload = []) := by
  constructor
  · intro i h hb hp
    exact find?_first env.supported mimeTypes i h hb hp
  · intro hall hc hne
    have hsel : selectedMimeType env = none := by
      rw [selectedMimeType]
      refine List.find?_eq_none.mpr fun a ha => ?_
      simp [hall a ha]
    rw [startRecording_eq_noFormat env g hc hne hsel]
    refine ⟨rfl, rfl, ?_⟩
    simp only [List.filter_append, filter_isDownload_audioLog,
      filter_isDownload_stop, List.nil_append, List.filter_cons]
    rfl

/-- Claim C4: when the render surface exists and the audio permission
is denied, `startRecording` does not fail — it starts a session whose
combined stream is exactly the video tracks (video-only, no audio
bitrate) and a run emitting data finalizes with a download. -/
theorem C4_audio_denied_video_only (env : Env) (g : List (List Nat))
    (ds : List (Option (List Nat))) (d : DateTime)
    (hc : env.canvasExists = true)
    (ha : env.audioGranted = false)
    (hvne : env.videoTracks ≠ [])
    (hm : (selectedMimeType env).isSome)
    (hctor : env.recorderCtorOk = true)
    (hsave : env.saveThrows = false)
    (hne : emittedChunks ds ≠ []) :
    ∃ s, (startRecording env g).2.1 = StartResult.started s
      ∧ s.tracks = env.videoTracks
      ∧ s.audioBitsPerSecond = none
      ∧ ∃ name, Action.download name (emittedChunks ds).flatten
          ∈ fullLog env g ds (.stopComplete d) := by
  have hacq : acquiredTracks env = env.videoTracks := by
    simp [acquiredTracks, ha]
  have hne' : (acquiredTracks env).isEmpty = false := by
    rw [hacq]
    rcases h : env.videoTracks with _ | ⟨a, l⟩
    · exact absurd h hvne
    · rfl
  obtain ⟨m, hsel⟩ := Option.isSome_iff_exists.mp hm
  have hstart := startRecording_eq_of env g hc hne' hsel hctor
  refine ⟨_, by rw [hstart], by simpa using hacq, by simp [ha], ?_⟩
  refine ⟨downloadFilename m d, ?_⟩
  rcases hds : emittedChunks ds with _ | ⟨c, cs⟩
  · exact absurd hds hne
  · rw [fullLog, hstart]
    simp only [runSession, processData_eq, List.nil_append, onstopLog, hds,
      List.isEmpty_cons, hsave, Bool.false_eq_true, if_false]
    simp [List.mem_append, ← hds]

/-- Claim C5: stop-completion on a session whose accumulated chunk
sequence is empty reports the non-fatal empty-recording condition and
releases all tracks; the handler log is exactly the report followed by
the stops — no artifact assembly, no download. -/
theorem C5_empty_recording (env : Env) (g : List (List Nat))
    (ds : List (Option (List Nat))) (d : DateTime) (s : Session)
    (hs : (startRecording env g).2.1 = StartResult.started s)
    (hempty : emittedChunks ds = []) :
    (runSession env s (startRecording env g).2.2 ds (.stopComplete d)).1
      = Action.reportEmptyRecording :: s.tracks.map .stopTrack := by
  obtain ⟨hc, hne', hm, hctor, hsEq⟩ := startRecording_started hs
  have hstart := startRecording_eq_of env g hc hne' hm hctor
  rw [← hsEq] at hstart
  rw [hstart]
  simp [runSession, processData_eq, hempty, onstopLog]

/-- Claim C6: every emitted chunk of non-zero size — and no zero-size
chunk — is appended in emission order, and a successful finalization
downloads exactly the in-order concatenation of that non-empty
sequence. -/
theorem C6_chunks_in_order (env : Env) (g : List (List Nat))
    (ds : List (Option (List Nat))) (d : DateTime) (s : Session)
    (hs : (startRecording env g).2.1 = StartResult.started s)
    (hsave : env.saveThrows = false)
    (hne : emittedChunks ds ≠ []) :
    (runSession env s (startRecording env g).2.2 ds (.stopComplete d)).2
        = emittedChunks ds
      ∧ (∀ c ∈ emittedChunks ds, c ≠ [])
      ∧ (runSession env s (startRecording env g).2.2 ds (.stopComplete d)).1
          = (emittedChunks ds).map Action.pushChunk
            ++ Action.download (downloadFilename s.mimeType d)
                 (emittedChunks ds).flatten
              :: s.tracks.map .stopTrack := by
  obtain ⟨hc, hne', hm, hctor, hsEq⟩ := startRecording_started hs
  have hstart := startRecording_eq_of env g hc hne' hm hctor
  rw [← hsEq] at hstart
  refine ⟨?_, ?_, ?_⟩
  · rw [hstart]
    cases hds : emittedChunks ds <;>
      simp [runSession, processData_eq, hds]
  · intro c hcmem
    rw [emittedChunks] at hcmem
    obtain ⟨a, _, heq⟩ := List.mem_filterMap.mp hcmem
    cases a with
    | none => cases heq
    | some x =>
      have heq2 : (if 0 < x.length then some x else none) = some c := heq
      by_cases hx : 0 < x.length
      · rw [if_pos hx] at heq2
        cases heq2
        exact List.length_pos.mp hx
      · rw [if_neg hx] at heq2
        cases heq2
  · rcases hds : emittedChunks ds with _ | ⟨c, cs⟩
    · exact absurd hds hne
    · rw [hstart]
      simp only [runSession, processData_eq, List.nil_append, onstopLog, hds,
        List.isEmpty_cons, hsave, Bool.false_eq_true, if_false]
      simp

/-- Claim C7: calling `stopRecording` with no recorder, or with an
inactive recorder, is a reported no-op: the warning is its whole action
log (so no stop signal, no track stop, no artifact), and the
stop-signal flag is false. -/
theorem C7_stop_noop (mr : Option RecorderState)
    (h : mr = none ∨ mr = some .inactive) :
    stopRecording mr = ([Action.reportStopInactive], false) := by
  rcases h with rfl | rfl <;> rfl

/-- Claim C8: every started session is configured with video bitrate
exactly 5,000,000 bits/second, a 100 ms chunk cadence, and an audio
bitrate of exactly 128,000 bits/second iff the combined stream holds an
audio track — under the conventions that canvas capture yields video
tracks, a granted microphone stream yields audio tracks, and a granted
`getUserMedia` call yields at least one track. -/
theorem C8_encoder_config (env : Env) (g : List (List Nat)) (s : Session)
    (hs : (startRecording env g).2.1 = StartResult.started s)
    (hva : ∀ t ∈ env.videoTracks, t.isAudio = false)
    (haa : ∀ t ∈ env.audioTracks, t.isAudio = true)
    (hgr : env.audioGranted = true → env.audioTracks ≠ []) :
    s.videoBitsPerSecond = 5000000
      ∧ s.timeslice = 100
      ∧ (s.audioBitsPerSecond = some 128000
          ↔ ∃ t ∈ s.tracks, t.isAudio = true) := by
  obtain ⟨hc, hne', hm, hctor, hsEq⟩ := startRecording_started hs
  refine ⟨by rw [hsEq], by rw [hsEq], ?_⟩
  rw [hsEq]
  show (if env.audioGranted then some 128000 else none) = some 128000
    ↔ ∃ t ∈ acquiredTracks env, t.isAudio = true
  cases hag : env.audioGranted with
  | true =>
    simp only [if_pos, acquiredTracks, hag, if_true, true_iff]
    obtain ⟨a, hamem⟩ := List.exists_mem_of_ne_nil _ (hgr hag)
    exact ⟨a, List.mem_append_right _ hamem, haa a hamem⟩
  | false =>
    simp only [acquiredTracks, hag, Bool.false_eq_true, if_false,
      List.append_nil]
    constructor
    · intro h
      cases h
    · rintro ⟨t, htm, hta⟩
      rw [hva t htm] at hta
      cases hta

/-- Claim C9: in the legacy variant, every finalized session downloads
under a name whose extension is `.mp4`, whatever MIME type the legacy
selection produced — including WebM-family selections. -/
theorem C9_legacy_mp4 (supported : String → Bool) (tracks : List Track)
    (d : DateTime) (g : List (List Nat))
    (hne : g ≠ []) :
    legacyOnstopLog false tracks (legacySelectedMimeType supported) d g
        = Action.download (legacyDownloadFilename d) g.flatten
            :: tracks.map .stopTrack
      ∧ ∃ base, legacyDownloadFilename d = base ++ ".mp4" := by
  constructor
  · rcases hg : g with _ | ⟨c, cs⟩
    · exact absurd hg hne
    · rw [legacyOnstopLog]
      simp
  · exact ⟨"shadertoy-recording_" ++ String.mk (jsTimestamp d), rfl⟩

/-- Claim C10: `startRecording` resets the accumulated chunk sequence
to empty before the encoder starts, so a started session finalizes over
exactly the chunks its own trace emitted, whatever blob list a previous
session left behind. -/
theorem C10_reset_blobs (env : Env) (g : List (List Nat))
    (ds : List (Option (List Nat))) (term : TerminalEvent) (s : Session)
    (hs : (startRecording env g).2.1 = StartResult.started s) :
    (startRecording env g).2.2 = []
      ∧ (runSession env s (startRecording env g).2.2 ds term).2
          = emittedChunks ds := by
  obtain ⟨hc, hne', hm, hctor, hsEq⟩ := startRecording_started hs
  have hstart := startRecording_eq_of env g hc hne' hm hctor
  rw [← hsEq] at hstart
  rw [hstart]
  exact ⟨rfl, by cases term <;> simp [runSession, processData_eq]⟩

/-! ### Concrete fixtures -/

/-- A canvas-capture video track. -/
def trackV : Track := ⟨0, false⟩

/-- A microphone audio track. -/
def trackA : Track := ⟨1, true⟩

/-- Audio denied, VP9 WebM supported. -/
def envW : Env :=
  { canvasExists := true
    audioGranted := false
    videoTracks := [trackV]
    audioTracks := []
    supported := fun m => m == "video/webm; codecs=\"vp9, opus\""
    recorderCtorOk := true
    saveThrows := false }

/-- Audio granted, bare MP4 supported. -/
def envA : Env :=
  { envW with
    audioGranted := true
    audioTracks := [trackA]
    supported := fun m => m == "video/mp4" }

/-- Everything supported except the first candidate. -/
def envS : Env :=
  { envW with
    supported := fun m => !(m == "video/mp4; codecs=\"avc1.42E01E, mp4a.40.2\"") }

/-- Nothing supported. -/
def envU : Env :=
  { envW with supported := fun _ => false }

/-- A sample stop-completion instant. -/
def dtW : DateTime := ⟨2024, 1, 15, 9, 30, 45, 123⟩

/-- A sample event trace: two non-empty chunks, one absent payload and
one zero-size payload. -/
def dsW : List (Option (List Nat)) := [some [1, 2], none, some [], some [3]]

/-- A trace with no non-empty payload. -/
def dsE : List (Option (List Nat)) := [some [], none]

/-- The session `startRecording envW []` builds. -/
def sessW : Session :=
  { tracks := [trackV]
    mimeType := "video/webm; codecs=\"vp9, opus\""
    videoBitsPerSecond := 5000000
    audioBitsPerSecond := none
    timeslice := 100 }

/-- The session `startRecording envA []` builds. -/
def sessA : Session :=
  { tracks := [trackV, trackA]
    mimeType := "video/mp4"
    videoBitsPerSecond := 5000000
    audioBitsPerSecond := some 128000
    timeslice := 100 }

/-! ### Witnesses -/

/-- Witness for C1 at a concrete WebM session stopped at
2024-01-15 09:30:45. -/
theorem C1_artifact_name_witness :
    (fullLog envW [] dsW (.stopComplete dtW)).filter isDownload
      = [Action.download
           ("shadertoy-recording_" ++ String.mk (specTimestamp dtW)
             ++ specExtension sessW.mimeType)
           (emittedChunks dsW).flatten] :=
  C1_artifact_name envW [] dsW dtW sessW rfl rfl (by decide)
    ⟨by decide, by decide, by decide, by decide, by decide, by decide,
      by decide, by decide, by decide⟩

/-- Witness for C2: the video track of a two-track session is stopped
exactly once across the whole log. -/
theorem C2_track_release_witness :
    (fullLog envA [] dsW (.stopComplete dtW)).filter (usesTrack trackV)
      = [Action.stopTrack trackV] :=
  C2_track_release envA [] dsW (.stopComplete dtW) trackV rfl
    (by decide) (by decide)

/-- Witness for C3: with the first candidate unsupported and the rest
supported, selection returns the second candidate; with nothing
supported, start fails with `noSupportedFormat`. -/
theorem C3_profile_selection_witness :
    selectedMimeType envS = some "video/webm; codecs=\"vp9, opus\""
      ∧ (startRecording envU []).2.1 = StartResult.noSupportedFormat := by
  constructor
  · have h : (1 : Nat) < mimeTypes.length := by decide
    refine (C3_profile_selection envS []).1 1 h ?_ ?_
    · intro j hj
      have hj0 : j = 0 := Nat.lt_one_iff.mp hj
      subst hj0
      show envS.supported "video/mp4; codecs=\"avc1.42E01E, mp4a.40.2\"" = false
      decide
    · show envS.supported "video/webm; codecs=\"vp9, opus\"" = true
      decide
  · exact ((C3_profile_selection envU []).2 (by decide) rfl (by decide)).1

/-- Witness for C4 at a denied-audio environment with a supported WebM
profile. -/
theorem C4_audio_denied_video_only_witness :
    ∃ s, (startRecording envW []).2.1 = StartResult.started s
      ∧ s.tracks = envW.videoTracks
      ∧ s.audioBitsPerSecond = none
      ∧ ∃ name, Action.download name (emittedChunks dsW).flatten
          ∈ fullLog envW [] dsW (.stopComplete dtW) :=
  C4_audio_denied_video_only envW [] dsW dtW rfl rfl (by decide)
    (by decide) rfl rfl (by decide)

/-- Witness for C5 at a trace whose payloads are all empty or
absent. -/
theorem C5_empty_recording_witness :
    (runSession envW sessW (startRecording envW []).2.2 dsE
        (.stopComplete dtW)).1
      = Action.reportEmptyRecording :: sessW.tracks.map .stopTrack :=
  C5_empty_recording envW [] dsE dtW sessW rfl (by decide)

/-- Witness for C6 at a trace with two non-empty chunks, an absent
payload and a zero-size payload. -/
theorem C6_chunks_in_order_witness :
    (runSession envW sessW (startRecording envW []).2.2 dsW
        (.stopComplete dtW)).2
        = emittedChunks dsW
      ∧ (∀ c ∈ emittedChunks dsW, c ≠ [])
      ∧ (runSession envW sessW (startRecording envW []).2.2 dsW
            (.stopComplete dtW)).1
          = (emittedChunks dsW).map Action.pushChunk
            ++ Action.download (downloadFilename sessW.mimeType dtW)
                 (emittedChunks dsW).flatten
              :: sessW.tracks.map .stopTrack :=
  C6_chunks_in_order envW [] dsW dtW sessW rfl rfl (by decide)

/-- Witness for C7: stop with no recorder at all. -/
theorem C7_stop_noop_witness :
    stopRecording none = ([Action.reportStopInactive], false) :=
  C7_stop_noop none (Or.inl rfl)

/-- Witness for C8 at the granted-audio environment. -/
theorem C8_encoder_config_witness :
    sessA.videoBitsPerSecond = 5000000
      ∧ sessA.timeslice = 100
      ∧ (sessA.audioBitsPerSecond = some 128000
          ↔ ∃ t ∈ sessA.tracks, t.isAudio = true) :=
  C8_encoder_config envA [] sessA rfl (by decide) (by decide)
    (fun _ => by decide)

/-- Witness for C9: the legacy variant selects `video/webm` when the
runtime supports none of its candidates, yet still downloads under
`.mp4`. -/
theorem C9_legacy_mp4_witness :
    legacyOnstopLog false [trackV] (legacySelectedMimeType fun _ => false)
        dtW [[1, 2]]
        = Action.download (legacyDownloadFilename dtW) ([[1, 2]] : List (List Nat)).flatten
            :: ([trackV] : List Track).map .stopTrack
      ∧ ∃ base, legacyDownloadFilename dtW = base ++ ".mp4" :=
  C9_legacy_mp4 (fun _ => false) [trackV] dtW [[1, 2]] (by decide)

/-- Witness for C10: a leftover blob from a previous session does not
reach the new session. -/
theorem C10_reset_blobs_witness :
    (startRecording envW [[9]]).2.2 = []
      ∧ (runSession envW sessW (startRecording envW [[9]]).2.2 dsW
            (.stopComplete dtW)).2
          = emittedChunks dsW :=
  C10_reset_blobs envW [[9]] dsW (.stopComplete dtW) sessW rfl

end ShaderToyRecorder









